import Mathlib

/-!
Verification of the tmux session-manager extension core.

The definitions below are a shallow embedding of the TypeScript source:
the line parsers and the ordering policy of getSessions in src/types.ts,
the window listing getWindows, the loadWindows state update of
WindowList.tsx, the working-directory escaping of createSession, and the
submit handler of RenameWindowForm.  JavaScript strings are modelled as
Lean String values, JavaScript array indexing past the end (undefined) as
Option, and the external command executor as an Except value supplied by
the environment.
-/

/-- Whitespace test used by the model of the JavaScript trim. -/
def jsWs (c : Char) : Bool := c.isWhitespace

/-- Model of JavaScript String.prototype.trim on character lists. -/
def jsTrimChars (cs : List Char) : List Char :=
  ((cs.dropWhile jsWs).reverse.dropWhile jsWs).reverse

/-- Model of JavaScript String.prototype.trim. -/
def jsTrim (s : String) : String := String.mk (jsTrimChars s.data)

/-- Fuelled worker for the model of JavaScript String.prototype.split with a
non-empty string separator.  One character is consumed per step, so fuel equal
to the input length suffices; the zero-fuel fallback is unreachable then. -/
def splitGo (sep : List Char) : Nat → List Char → List (List Char)
  | _, [] => [[]]
  | 0, rest => [rest]
  | fuel + 1, c :: cs =>
    if sep.isPrefixOf (c :: cs) && !sep.isEmpty then
      [] :: splitGo sep fuel (List.drop (sep.length - 1) cs)
    else
      match splitGo sep fuel cs with
      | [] => [[c]]
      | p :: ps => (c :: p) :: ps

/-- Model of JavaScript split on character lists. -/
def splitChars (sep l : List Char) : List (List Char) := splitGo sep l.length l

/-- Model of JavaScript String.prototype.split with a string separator. -/
def jsSplit (sep s : String) : List String :=
  (splitChars sep.data s.data).map String.mk

/-- Digit value of a character under a radix, as JavaScript parseInt reads
digits: 0-9, then lowercase and uppercase letters. -/
def digitValue (radix : Nat) (c : Char) : Option Nat :=
  let v : Nat :=
    if 48 ≤ c.toNat && c.toNat ≤ 57 then c.toNat - 48
    else if 97 ≤ c.toNat && c.toNat ≤ 122 then c.toNat - 87
    else if 65 ≤ c.toNat && c.toNat ≤ 90 then c.toNat - 55
    else 99
  if v < radix then some v else none

/-- Longest leading run of digits, as JavaScript parseInt consumes them; none
when no digit at all was read. -/
def takeDigits (radix : Nat) : List Char → Nat → Bool → Option Nat
  | [], acc, seen => if seen then some acc else none
  | c :: cs, acc, seen =>
    match digitValue radix c with
    | some d => takeDigits radix cs (acc * radix + d) true
    | none => if seen then some acc else none

/-- Model of JavaScript parseInt with no radix argument: skip leading
whitespace, read an optional sign, detect a hex prefix, then read leading
digits; NaN (no digit) is modelled as none. -/
def jsParseIntOpt (s : String) : Option Int :=
  let cs := s.data.dropWhile jsWs
  let neg : Bool := cs.head? == some '-'
  let cs2 := if cs.head? == some '-' || cs.head? == some '+' then cs.tail else cs
  let hex : Bool := cs2.take 2 == ['0', 'x'] || cs2.take 2 == ['0', 'X']
  let cs3 := if hex then cs2.drop 2 else cs2
  match takeDigits (if hex then 16 else 10) cs3 0 false with
  | none => none
  | some v => some (if neg then -(v : Int) else (v : Int))

/-- Model of the source idiom parseInt(parts[i]) or-else 0: an absent field
(JavaScript undefined) and a failed parse both yield 0, and a parsed 0 is
returned unchanged. -/
def jsParseIntOr0 : Option String → Int
  | none => 0
  | some s => (jsParseIntOpt s).getD 0

/-- SessionInfo record of src/types.ts.  The created and currentWindow fields
can be JavaScript undefined at runtime when the line has too few fields, so
they are modelled as Option. -/
structure SessionInfo where
  name : String
  windowCount : Int
  attached : Bool
  created : Option String
  currentWindow : Option String
  paneCount : Int
  lastAttached : Int
deriving DecidableEq

/-- WindowInfo record of src/types.ts, with the fields that JavaScript can
leave undefined modelled as Option. -/
structure WindowInfo where
  id : String
  index : Option String
  name : Option String
  active : Bool
  layout : Option String
deriving DecidableEq

/-- The filter of the source: keep lines that are non-empty after trim. -/
def nonBlank (l : String) : Bool := decide (0 < (jsTrim l).length)

/-- Lines handed to the per-line parsers: the whole captured stdout is
trimmed, split on newline, and blank lines are dropped. -/
def outputLines (stdout : String) : List String :=
  (jsSplit "\n" (jsTrim stdout)).filter nonBlank

/-- Per-line session parser of getSessions in src/types.ts. -/
def parseSessionLine (line : String) : SessionInfo :=
  let parts := jsSplit "|||" line
  { name := (parts[0]?).getD ""
    windowCount := jsParseIntOr0 parts[1]?
    attached := parts[2]? == some "1"
    created := parts[3]?
    currentWindow := parts[4]?
    paneCount := jsParseIntOr0 parts[5]?
    lastAttached := jsParseIntOr0 parts[6]? }

/-- Parsing stage of getSessions: trim, split, filter, map. -/
def parseSessions (stdout : String) : List SessionInfo :=
  (outputLines stdout).map parseSessionLine

/-- The comparator passed to the array sort in getSessions: attached first,
then descending lastAttached. -/
def sessionCmp (a b : SessionInfo) : Int :=
  if a.attached != b.attached then (if a.attached then -1 else 1)
  else b.lastAttached - a.lastAttached

/-- Nonpositive-comparator relation induced by sessionCmp. -/
def sessionLE (a b : SessionInfo) : Bool := decide (sessionCmp a b ≤ 0)

/-- The sort applied by getSessions, modelled as a stable merge sort under
the comparator relation. -/
def sortSessions (l : List SessionInfo) : List SessionInfo := l.mergeSort sessionLE

/-- getSessions of src/types.ts, abstracted over the executor outcome: a
rejection of runCommand is caught and becomes the empty list, a resolution
is parsed and sorted. -/
def getSessions (exec : Except String String) : List SessionInfo :=
  match exec with
  | Except.error _ => []
  | Except.ok stdout => sortSessions (parseSessions stdout)

/-- Per-line window parser of getWindows in src/types.ts. -/
def parseWindowLine (line : String) : WindowInfo :=
  let parts := jsSplit "|||" line
  { id := (parts[0]?).getD ""
    index := parts[1]?
    name := parts[2]?
    active := parts[3]? == some "1"
    layout := parts[4]? }

/-- Parsing stage of getWindows: trim, split, filter, map, in line order. -/
def parseWindows (stdout : String) : List WindowInfo :=
  (outputLines stdout).map parseWindowLine

/-- getWindows of src/types.ts: no catch, so an executor failure propagates
to the caller unchanged. -/
def getWindows (exec : Except String String) : Except String (List WindowInfo) :=
  match exec with
  | Except.error e => Except.error e
  | Except.ok stdout => Except.ok (parseWindows stdout)

/-- State update of loadWindows in WindowList.tsx: on success the held list
is replaced and no error is reported; on failure the held list is kept as it
was and the error message is reported through handleError. -/
def loadWindows (prev : List WindowInfo) (exec : Except String String) :
    List WindowInfo × Option String :=
  match getWindows exec with
  | Except.ok data => (data, none)
  | Except.error e => (prev, some e)

/-- Character class of the escaping regex in createSession: double quote,
single quote, dollar, backtick, backslash. -/
def isEscapedChar (c : Char) : Bool :=
  c == '"' || c == '\'' || c == '$' || c == '`' || c == '\\'

/-- The global regex replace of createSession, scanning left to right and
putting one backslash before each matched character. -/
def escapeScan : List Char → List Char
  | [] => []
  | c :: cs => if isEscapedChar c then '\\' :: c :: escapeScan cs else c :: escapeScan cs

/-- Escaped working directory as computed by createSession. -/
def escapeDir (s : String) : String := String.mk (escapeScan s.data)

/-- The command line constructed by createSession in src/types.ts. -/
def createSessionCmd (name dir : String) : String :=
  "tmux new-session -d -s " ++ name ++ " -c \"" ++ escapeDir dir ++ "\""

/-- Modelled from the spec: per-character escaping as the claim words it,
with the set of escaped characters being double quote, single quote,
backtick and backslash only, each preceded by exactly one backslash and
every other character left unaltered. -/
def specEscapeChar (c : Char) : List Char :=
  if c == '"' || c == '\'' || c == '`' || c == '\\' then ['\\', c] else [c]

/-- Modelled from the spec: the full escaped string under the claimed
four-character set. -/
def specEscape (s : String) : String := String.mk (s.data.flatMap specEscapeChar)

/-- Per-character escaping as the amended claim words it: the dollar sign is
escaped as well. -/
def specEscapeAmendedChar (c : Char) : List Char :=
  if isEscapedChar c then ['\\', c] else [c]

/-- The full escaped string under the amended five-character set. -/
def specEscapeAmended (s : String) : String :=
  String.mk (s.data.flatMap specEscapeAmendedChar)

/-- Outcome of the rename-window submit handler: rejected locally, dropped
as a no-op because the name is unchanged, or an external command issued. -/
inductive RenameAction where
  | rejected
  | unchanged
  | run (cmd : String)
deriving DecidableEq

/-- The command line constructed by renameWindow in src/types.ts. -/
def renameWindowCmd (id newName : String) : String :=
  "tmux rename-window -t " ++ id ++ " " ++ newName

/-- Submit handler of RenameWindowForm: coalesce an undefined form value to
the empty string, trim, reject when empty, drop when unchanged, otherwise
issue the rename command. -/
def renameWindowSubmit (nameValue : Option String) (currentName windowId : String) :
    RenameAction :=
  let newName := jsTrim (nameValue.getD "")
  if newName == "" then RenameAction.rejected
  else if newName == currentName then RenameAction.unchanged
  else RenameAction.run (renameWindowCmd windowId newName)

/-- The display ordering the specification asks of the session list:
attached records precede detached ones, and within equal attachment the
lastAttached values are non-increasing. -/
def displayOrdered (a b : SessionInfo) : Prop :=
  (b.attached = true → a.attached = true) ∧
  (a.attached = b.attached → b.lastAttached ≤ a.lastAttached)

theorem sessionLE_trans (a b c : SessionInfo) :
    sessionLE a b = true → sessionLE b c = true → sessionLE a c = true := by
  simp only [sessionLE, sessionCmp, decide_eq_true_eq]
  cases ha : a.attached <;> cases hb : b.attached <;> cases hc : c.attached <;>
    simp [ha, hb, hc] <;> omega

theorem sessionLE_total (a b : SessionInfo) : (sessionLE a b || sessionLE b a) = true := by
  simp only [sessionLE, sessionCmp, Bool.or_eq_true, decide_eq_true_eq]
  cases ha : a.attached <;> cases hb : b.attached <;> simp [ha, hb] <;> omega

theorem sessionLE_displayOrdered {a b : SessionInfo} (h : sessionLE a b = true) :
    displayOrdered a b := by
  simp only [sessionLE, sessionCmp, decide_eq_true_eq] at h
  constructor
  · intro hb
    cases ha : a.attached
    · rw [ha, hb] at h
      simp at h
    · rfl
  · intro hab
    rw [hab] at h
    simp at h
    omega

/-- Claim C1: the session list returned by getSessions is ordered with every
attached session before every detached one, and within each attachment group
the lastAttached values are non-increasing. -/
theorem getSessions_sorted :
    (∀ l : List SessionInfo, (sortSessions l).Pairwise displayOrdered) ∧
    (∀ exec : Except String String, (getSessions exec).Pairwise displayOrdered) := by
  have hsort : ∀ l : List SessionInfo, (sortSessions l).Pairwise displayOrdered := by
    intro l
    exact (List.sorted_mergeSort sessionLE_trans sessionLE_total l).imp
      (fun h => sessionLE_displayOrdered h)
  refine ⟨hsort, fun exec => ?_⟩
  cases exec with
  | error e => exact List.Pairwise.nil
  | ok out => exact hsort (parseSessions out)

/-- Witness for claim C1 at a concrete two-session listing. -/
theorem getSessions_sorted_witness :
    (getSessions (Except.ok
      "web|||2|||1|||1700000000|||editor|||3|||1700003600\ninfra|||1|||0|||1699000000|||main|||1|||1699000100")).Pairwise
      displayOrdered :=
  getSessions_sorted.2 (Except.ok
    "web|||2|||1|||1700000000|||editor|||3|||1700003600\ninfra|||1|||0|||1699000000|||main|||1|||1699000100")

/-- Claim C2: an executor failure makes getSessions return the empty list
rather than propagate the error. -/
theorem getSessions_error_empty (e : String) : getSessions (Except.error e) = [] := rfl

/-- Witness for claim C2 at the concrete failure text of a stopped server. -/
theorem getSessions_error_empty_witness : getSessions (Except.error "no server running") = [] :=
  getSessions_error_empty "no server running"

/-- Counterexample for claim C3: the source escapes the dollar sign as well,
so a dollar sign in the working directory does not stay unaltered as the
claim requires. -/
theorem escapeDir_escapes_dollar_too :
    escapeDir "$" = "\\$" ∧ specEscape "$" = "$" ∧ escapeDir "$" ≠ specEscape "$" := by
  decide

theorem escapeScan_eq_flatMap (cs : List Char) :
    escapeScan cs = cs.flatMap specEscapeAmendedChar := by
  induction cs with
  | nil => rfl
  | cons c cs ih =>
    by_cases h : isEscapedChar c = true <;>
      simp [escapeScan, specEscapeAmendedChar, h, ih]

/-- Claim C3 (amended): the escaped working directory has each double quote,
single quote, dollar sign, backtick and backslash preceded by exactly one
backslash, every other character unaltered, and it is substituted verbatim
into the double-quoted argument of the constructed command line. -/
theorem escapeDir_escapes_shell_chars :
    (∀ s : String, escapeDir s = specEscapeAmended s) ∧
    (∀ name dir : String, createSessionCmd name dir =
      "tmux new-session -d -s " ++ name ++ " -c \"" ++ specEscapeAmended dir ++ "\"") := by
  have h : ∀ s : String, escapeDir s = specEscapeAmended s := by
    intro s
    simp [escapeDir, specEscapeAmended, escapeScan_eq_flatMap]
  refine ⟨h, fun name dir => ?_⟩
  simp [createSessionCmd, h dir]

/-- Claim C4: a rename-window submission whose name is empty after trimming
is rejected locally and never issues an external command. -/
theorem renameWindow_empty_rejected (nameValue : Option String)
    (currentName windowId : String)
    (h : jsTrim (nameValue.getD "") = "") :
    renameWindowSubmit nameValue currentName windowId = RenameAction.rejected ∧
    ∀ cmd : String,
      renameWindowSubmit nameValue currentName windowId ≠ RenameAction.run cmd := by
  have hr : renameWindowSubmit nameValue currentName windowId = RenameAction.rejected := by
    simp [renameWindowSubmit, h]
  exact ⟨hr, fun cmd hcmd => by rw [hr] at hcmd; exact RenameAction.noConfusion hcmd⟩

/-- Witness for claim C4 at a whitespace-only submitted name. -/
theorem renameWindow_empty_rejected_witness :
    renameWindowSubmit (some "   ") "old" "@1" = RenameAction.rejected ∧
    ∀ cmd : String, renameWindowSubmit (some "   ") "old" "@1" ≠ RenameAction.run cmd :=
  renameWindow_empty_rejected (some "   ") "old" "@1" (by decide)

/-- A numeric field that JavaScript parseInt cannot read: the field is absent
(undefined), empty, or malformed. -/
def numFieldFails : Option String → Bool
  | none => true
  | some s => (jsParseIntOpt s).isNone

theorem jsParseIntOr0_eq_zero {f : Option String} (h : numFieldFails f = true) :
    jsParseIntOr0 f = 0 := by
  cases f with
  | none => rfl
  | some s =>
    simp only [numFieldFails, Option.isNone_iff_eq_none] at h
    simp [jsParseIntOr0, h]

/-- Claim C5: a missing, empty or malformed trailing numeric field parses to
0 and the record is still produced, never discarded. -/
theorem numeric_parse_failure_defaults (line stdout : String)
    (hmem : line ∈ outputLines stdout) :
    (numFieldFails (jsSplit "|||" line)[1]? = true →
      (parseSessionLine line).windowCount = 0) ∧
    (numFieldFails (jsSplit "|||" line)[5]? = true →
      (parseSessionLine line).paneCount = 0) ∧
    (numFieldFails (jsSplit "|||" line)[6]? = true →
      (parseSessionLine line).lastAttached = 0) ∧
    parseSessionLine line ∈ parseSessions stdout := by
  refine ⟨fun h => ?_, fun h => ?_, fun h => ?_, List.mem_map_of_mem _ hmem⟩ <;>
    simp [parseSessionLine, jsParseIntOr0_eq_zero h]

/-- Witness for claim C5: a line with a malformed window count and with the
pane count and last-attached fields missing entirely. -/
theorem numeric_parse_failure_defaults_witness :
    (parseSessionLine "web|||x|||1").windowCount = 0 ∧
    (parseSessionLine "web|||x|||1").paneCount = 0 ∧
    (parseSessionLine "web|||x|||1").lastAttached = 0 ∧
    parseSessionLine "web|||x|||1" ∈ parseSessions "web|||x|||1" := by
  have h := numeric_parse_failure_defaults "web|||x|||1" "web|||x|||1" (by decide)
  exact ⟨h.1 (by decide), h.2.1 (by decide), h.2.2.1 (by decide), h.2.2.2⟩

theorem jsTrimChars_eq_nil_of_ws {l : List Char} (h : ∀ c ∈ l, jsWs c = true) :
    jsTrimChars l = [] := by
  have h1 : l.dropWhile jsWs = [] := List.dropWhile_eq_nil_iff.mpr h
  simp [jsTrimChars, h1]

theorem ws_of_jsTrimChars_eq_nil {l : List Char} (h : jsTrimChars l = []) :
    ∀ c ∈ l, jsWs c = true := by
  intro c hc
  have h1 : (l.dropWhile jsWs).reverse.dropWhile jsWs = [] :=
    List.reverse_eq_nil_iff.mp h
  have h2 : ∀ x ∈ l.dropWhile jsWs, jsWs x = true := by
    intro x hx
    exact List.dropWhile_eq_nil_iff.mp h1 x (List.mem_reverse.mpr hx)
  have h3 := List.takeWhile_append_dropWhile jsWs l
  rw [← h3] at hc
  rcases List.mem_append.mp hc with h4 | h4
  · exact List.mem_takeWhile_imp h4
  · exact h2 c h4

theorem splitGo_covers (sep : List Char) :
    ∀ (fuel : Nat) (l : List Char), ∀ c ∈ l,
      c ∈ sep ∨ ∃ p ∈ splitGo sep fuel l, c ∈ p := by
  intro fuel
  induction fuel with
  | zero =>
    intro l c hc
    cases l with
    | nil => simp at hc
    | cons a as => exact Or.inr ⟨a :: as, by simp [splitGo], hc⟩
  | succ fuel ih =>
    intro l c hc
    cases l with
    | nil => simp at hc
    | cons a as =>
      by_cases hp : (sep.isPrefixOf (a :: as) && !sep.isEmpty) = true
      · have hps : sep.isPrefixOf (a :: as) = true ∧ (!sep.isEmpty) = true := by
          simpa using hp
        have hp1 : sep.isPrefixOf (a :: as) = true := hps.1
        have hp2 : sep ≠ [] := by
          have := hps.2
          simp [List.isEmpty_iff] at this
          exact this
        obtain ⟨t, ht⟩ := List.isPrefixOf_iff_prefix.mp hp1
        have hdrop : List.drop (sep.length - 1) as = t := by
          have hd := congrArg (List.drop sep.length) ht
          rw [List.drop_left] at hd
          obtain ⟨s0, ss, rfl⟩ : ∃ s0 ss, sep = s0 :: ss := by
            cases sep with
            | nil => exact absurd rfl hp2
            | cons s0 ss => exact ⟨s0, ss, rfl⟩
          simpa [List.drop_succ_cons] using hd.symm
        rw [← ht] at hc
        rcases List.mem_append.mp hc with h1 | h1
        · exact Or.inl h1
        · rcases ih t c h1 with h2 | ⟨p, hmp, hcp⟩
          · exact Or.inl h2
          · refine Or.inr ⟨p, ?_, hcp⟩
            rw [← hdrop] at hmp
            simp only [splitGo, hp, if_true]
            exact List.mem_cons_of_mem _ hmp
      · rcases List.mem_cons.mp hc with rfl | hmem
        · refine Or.inr ?_
          cases hres : splitGo sep fuel as with
          | nil => exact ⟨[c], by simp [splitGo, hp, hres], by simp⟩
          | cons q qs => exact ⟨c :: q, by simp [splitGo, hp, hres], by simp⟩
        · rcases ih as c hmem with h1 | ⟨p, hmp, hcp⟩
          · exact Or.inl h1
          · refine Or.inr ?_
            cases hres : splitGo sep fuel as with
            | nil =>
              rw [hres] at hmp
              simp at hmp
            | cons q qs =>
              rw [hres] at hmp
              rcases List.mem_cons.mp hmp with rfl | htail
              · exact ⟨a :: p, by simp [splitGo, hp, hres], List.mem_cons_of_mem _ hcp⟩
              · exact ⟨p, by simp [splitGo, hp, hres, List.mem_cons]; right; exact htail, hcp⟩

theorem ws_of_lines_blank {stdout : String}
    (h : ∀ line ∈ jsSplit "\n" stdout, jsTrim line = "") :
    ∀ c ∈ stdout.data, jsWs c = true := by
  intro c hc
  rcases splitGo_covers ("\n".data) stdout.data.length stdout.data c hc with h1 | ⟨p, hp1, hp2⟩
  · have : c = '\n' := by simpa using h1
    rw [this]
    decide
  · have hmem : String.mk p ∈ jsSplit "\n" stdout :=
      List.mem_map_of_mem String.mk hp1
    have htr : jsTrim (String.mk p) = "" := h (String.mk p) hmem
    have hnil : jsTrimChars p = [] := by
      have := congrArg String.data htr
      simpa [jsTrim] using this
    exact ws_of_jsTrimChars_eq_nil hnil c hp2

/-- Claim C6: executor output consisting only of blank or whitespace-only
lines parses to the empty record list for both sessions and windows. -/
theorem whitespace_only_yields_empty (stdout : String)
    (h : ∀ line ∈ jsSplit "\n" stdout, jsTrim line = "") :
    parseSessions stdout = [] ∧ parseWindows stdout = [] := by
  have hws := ws_of_lines_blank h
  have htrim : jsTrim stdout = "" := by
    have := jsTrimChars_eq_nil_of_ws hws
    simp [jsTrim, this]
  have hlines : outputLines stdout = [] := by
    simp only [outputLines, htrim]
    decide
  simp [parseSessions, parseWindows, hlines]

/-- Witness for claim C6 at output made of spaces, tabs and newlines. -/
theorem whitespace_only_yields_empty_witness :
    parseSessions "  \n\t \n" = [] ∧ parseWindows "  \n\t \n" = [] :=
  whitespace_only_yields_empty "  \n\t \n" (by decide)

/-- Claim C7: the window listing keeps the exact order of the non-blank
lines of the executor output, applying no re-sort of any kind. -/
theorem getWindows_line_order (stdout : String) :
    getWindows (Except.ok stdout) = Except.ok (parseWindows stdout) ∧
    (parseWindows stdout).length = (outputLines stdout).length ∧
    ∀ i : Nat, (parseWindows stdout)[i]? = ((outputLines stdout)[i]?).map parseWindowLine := by
  refine ⟨rfl, by simp [parseWindows], fun i => ?_⟩
  simp [parseWindows, List.getElem?_map]

/-- Witness for claim C7 at a concrete two-window listing. -/
theorem getWindows_line_order_witness :
    getWindows (Except.ok "@1|||0|||main|||1|||aaa\n@2|||1|||vim|||0|||bbb") =
      Except.ok (parseWindows "@1|||0|||main|||1|||aaa\n@2|||1|||vim|||0|||bbb") ∧
    (parseWindows "@1|||0|||main|||1|||aaa\n@2|||1|||vim|||0|||bbb").length =
      (outputLines "@1|||0|||main|||1|||aaa\n@2|||1|||vim|||0|||bbb").length ∧
    ∀ i : Nat, (parseWindows "@1|||0|||main|||1|||aaa\n@2|||1|||vim|||0|||bbb")[i]? =
      ((outputLines "@1|||0|||main|||1|||aaa\n@2|||1|||vim|||0|||bbb")[i]?).map parseWindowLine :=
  getWindows_line_order "@1|||0|||main|||1|||aaa\n@2|||1|||vim|||0|||bbb"

/-- Counterexample for claim C8: when a window listing fails after an earlier
successful load, the view keeps its previously loaded, non-empty window list
while reporting the error, so the list does not degrade to empty. -/
theorem loadWindows_error_keeps_list :
    loadWindows [⟨"@1", some "0", some "main", true, some "tiled"⟩]
        (Except.error "no server") =
      ([⟨"@1", some "0", some "main", true, some "tiled"⟩], some "no server") ∧
    ([(⟨"@1", some "0", some "main", true, some "tiled"⟩ : WindowInfo)] : List WindowInfo) ≠ [] := by
  decide

/-- Claim C8 (amended): a scoped window listing failure is surfaced to the
caller, in contrast to the session listing which absorbs failures into an
empty list; the window view reports the error and keeps whatever list it
already held rather than replacing it. -/
theorem window_listing_failure_surfaced :
    (∀ e : String, getWindows (Except.error e) = Except.error e) ∧
    (∀ (prev : List WindowInfo) (e : String),
      loadWindows prev (Except.error e) = (prev, some e)) ∧
    (∀ e : String, getSessions (Except.error e) = []) :=
  ⟨fun _ => rfl, fun _ _ => rfl, fun _ => rfl⟩

/-- Witness for claim C8 at a concrete failure. -/
theorem window_listing_failure_surfaced_witness :
    getWindows (Except.error "session deleted") = Except.error "session deleted" ∧
    loadWindows [] (Except.error "session deleted") = ([], some "session deleted") ∧
    getSessions (Except.error "session deleted") = [] :=
  ⟨window_listing_failure_surfaced.1 "session deleted",
   window_listing_failure_surfaced.2.1 [] "session deleted",
   window_listing_failure_surfaced.2.2 "session deleted"⟩

/-- Counterexample for claim C9: a line whose window-count field is a
parseable negative number flows through the or-else-0 idiom unchanged, so a
record returned by the listing call has a negative windowCount. -/
theorem negative_window_count :
    ∃ r ∈ getSessions (Except.ok "web|||-2|||1|||100|||main|||3|||5"), r.windowCount < 0 := by
  have hp : parseSessions "web|||-2|||1|||100|||main|||3|||5" =
      [⟨"web", -2, true, some "100", some "main", 3, 5⟩] := by decide
  refine ⟨⟨"web", -2, true, some "100", some "main", 3, 5⟩, ?_, by decide⟩
  show _ ∈ sortSessions (parseSessions "web|||-2|||1|||100|||main|||3|||5")
  exact List.mem_mergeSort.mpr (by rw [hp]; exact List.mem_singleton_self _)

/-- A numeric field whose first non-whitespace character is not a minus
sign; absent fields count as such because they parse to the default 0. -/
def fieldNonNegative : Option String → Bool
  | none => true
  | some s => !((s.data.dropWhile jsWs).head? == some '-')

theorem jsParseIntOr0_nonneg {f : Option String} (h : fieldNonNegative f = true) :
    0 ≤ jsParseIntOr0 f := by
  cases f with
  | none => simp [jsParseIntOr0]
  | some s =>
    have hneg : ((s.data.dropWhile jsWs).head? == some '-') = false := by
      simpa [fieldNonNegative] using h
    simp only [jsParseIntOr0, jsParseIntOpt, hneg]
    split
    · simp
    · simp [Int.natCast_nonneg]

/-- Claim C9 (amended): windowCount and paneCount are non-negative for every
input line whose window-count and pane-count fields do not start with a
minus sign; parse failures and absent fields default to 0. -/
theorem counts_nonneg (line : String)
    (h1 : fieldNonNegative (jsSplit "|||" line)[1]? = true)
    (h5 : fieldNonNegative (jsSplit "|||" line)[5]? = true) :
    0 ≤ (parseSessionLine line).windowCount ∧ 0 ≤ (parseSessionLine line).paneCount := by
  exact ⟨jsParseIntOr0_nonneg h1, jsParseIntOr0_nonneg h5⟩

/-- Witness for claim C9 (amended) at a well-formed listing line. -/
theorem counts_nonneg_witness :
    0 ≤ (parseSessionLine "web|||2|||1|||100|||main|||3|||5").windowCount ∧
    0 ≤ (parseSessionLine "web|||2|||1|||100|||main|||3|||5").paneCount :=
  counts_nonneg "web|||2|||1|||100|||main|||3|||5" (by decide) (by decide)

/-- Claim C10: for every line with fewer fields than the record arity, each
missing trailing string-typed field stays undefined rather than defaulting
to the empty string, while each missing numeric field defaults to 0 and
each missing boolean field to false; one implication per field covers every
short arity of both record shapes. -/
theorem missing_fields_stay_undefined (line : String) :
    ((jsSplit "|||" line).length ≤ 3 → (parseSessionLine line).created = none) ∧
    ((jsSplit "|||" line).length ≤ 4 → (parseSessionLine line).currentWindow = none) ∧
    ((jsSplit "|||" line).length ≤ 1 → (parseSessionLine line).windowCount = 0) ∧
    ((jsSplit "|||" line).length ≤ 2 → (parseSessionLine line).attached = false) ∧
    ((jsSplit "|||" line).length ≤ 5 → (parseSessionLine line).paneCount = 0) ∧
    ((jsSplit "|||" line).length ≤ 6 → (parseSessionLine line).lastAttached = 0) ∧
    ((jsSplit "|||" line).length ≤ 1 → (parseWindowLine line).index = none) ∧
    ((jsSplit "|||" line).length ≤ 2 → (parseWindowLine line).name = none) ∧
    ((jsSplit "|||" line).length ≤ 3 → (parseWindowLine line).active = false) ∧
    ((jsSplit "|||" line).length ≤ 4 → (parseWindowLine line).layout = none) := by
  have hn : ∀ i : Nat, (jsSplit "|||" line).length ≤ i → (jsSplit "|||" line)[i]? = none := by
    intro i hi
    rw [List.getElem?_eq_none_iff]
    exact hi
  refine ⟨fun h => ?_, fun h => ?_, fun h => ?_, fun h => ?_, fun h => ?_,
    fun h => ?_, fun h => ?_, fun h => ?_, fun h => ?_, fun h => ?_⟩
  · simp [parseSessionLine, hn 3 h]
  · simp [parseSessionLine, hn 4 h]
  · simp [parseSessionLine, hn 1 h, jsParseIntOr0]
  · simp [parseSessionLine, hn 2 h]
  · simp [parseSessionLine, hn 5 h, jsParseIntOr0]
  · simp [parseSessionLine, hn 6 h, jsParseIntOr0]
  · simp [parseWindowLine, hn 1 h]
  · simp [parseWindowLine, hn 2 h]
  · simp [parseWindowLine, hn 3 h]
  · simp [parseWindowLine, hn 4 h]

/-- Witness for claim C10: a four-field line exercises the missing
currentWindow, layout, paneCount and lastAttached cases, and a one-field
line exercises every remaining field of both record shapes. -/
theorem missing_fields_stay_undefined_witness :
    (parseSessionLine "a|||1|||1|||t").currentWindow = none ∧
    (parseWindowLine "a|||1|||1|||t").layout = none ∧
    (parseSessionLine "a|||1|||1|||t").paneCount = 0 ∧
    (parseSessionLine "a|||1|||1|||t").lastAttached = 0 ∧
    (parseSessionLine "a").created = none ∧
    (parseSessionLine "a").windowCount = 0 ∧
    (parseSessionLine "a").attached = false ∧
    (parseWindowLine "a").index = none ∧
    (parseWindowLine "a").name = none ∧
    (parseWindowLine "a").active = false :=
  ⟨(missing_fields_stay_undefined "a|||1|||1|||t").2.1 (by decide),
   (missing_fields_stay_undefined "a|||1|||1|||t").2.2.2.2.2.2.2.2.2 (by decide),
   (missing_fields_stay_undefined "a|||1|||1|||t").2.2.2.2.1 (by decide),
   (missing_fields_stay_undefined "a|||1|||1|||t").2.2.2.2.2.1 (by decide),
   (missing_fields_stay_undefined "a").1 (by decide),
   (missing_fields_stay_undefined "a").2.2.1 (by decide),
   (missing_fields_stay_undefined "a").2.2.2.1 (by decide),
   (missing_fields_stay_undefined "a").2.2.2.2.2.2.1 (by decide),
   (missing_fields_stay_undefined "a").2.2.2.2.2.2.2.1 (by decide),
   (missing_fields_stay_undefined "a").2.2.2.2.2.2.2.2.1 (by decide)⟩
